import Mathlib

/-!
# Verification of the color-3d-ai viewer's ingestion and interaction pipeline

Shallow embedding of the two viewer variants' core pipeline:

* file-extension dispatch (`extOf`, `SUPPORTED_EXTENSIONS`, `handleFile`),
* geometry / object normalization (`BufferGeometry.center`, `prepareObject`,
  `centerObject`, the material-override traversal `overrideMats`),
* the model-state holder (`AppState`, the status messages, the trace of
  `setStatus` calls and the `console.error` diagnostic channel),
* the dual-mode variant's orbit/gizmo interaction state machine
  (`SceneState`, `applyEvent`, `Reachable`).

Machine floating-point vectors are embedded as rationals (`ℚ`), so the
bounding-box arithmetic of the source is exact here; parser collaborators
(`STLLoader.parse`, `OBJLoader.parse`) are external to the repository and are
taken as parameters returning `Except`, mirroring that they may throw.
-/

/-- A 3-component vector, as used for three.js positions/vertices. -/
structure Vec3 where
  x : ℚ
  y : ℚ
  z : ℚ
  deriving DecidableEq, Repr

namespace Vec3

def add (a b : Vec3) : Vec3 := ⟨a.x + b.x, a.y + b.y, a.z + b.z⟩

def sub (a b : Vec3) : Vec3 := ⟨a.x - b.x, a.y - b.y, a.z - b.z⟩

def neg (a : Vec3) : Vec3 := ⟨-a.x, -a.y, -a.z⟩

def zero : Vec3 := ⟨0, 0, 0⟩

theorem sub_zero_eq (a : Vec3) : a.sub zero = a := by
  cases a; simp [sub, zero]

theorem sub_self_eq (a : Vec3) : a.sub a = zero := by
  cases a; simp [sub, zero]

theorem sub_add_eq_neg (a b : Vec3) : a.sub (a.add b) = b.neg := by
  cases a; cases b; simp only [sub, add, neg, Vec3.mk.injEq]
  refine ⟨by ring, by ring, by ring⟩

theorem neg_add_eq_zero (b : Vec3) : b.neg.add b = zero := by
  cases b; simp [add, neg, zero]

end Vec3

/-- The axis-aligned bounding-box midpoint of a list of rationals: `0` for the
empty list (three.js `Box3.getCenter` returns the zero vector on an empty box),
otherwise `(min + max) / 2`. -/
def boxCenterQ (l : List ℚ) : ℚ :=
  match l with
  | [] => 0
  | a :: t => (t.foldl min a + t.foldl max a) / 2

/-- Per-axis bounding-box centroid of a vertex list (three.js
`Box3.getCenter`). -/
def boxCenterV (vs : List Vec3) : Vec3 :=
  ⟨boxCenterQ (vs.map Vec3.x), boxCenterQ (vs.map Vec3.y), boxCenterQ (vs.map Vec3.z)⟩

/-- A parsed single-surface mesh buffer (three.js `BufferGeometry`), reduced to
its vertex positions, which is all the normalization logic touches. -/
structure BufferGeometry where
  vertices : List Vec3
  deriving DecidableEq, Repr

/-- three.js `BufferGeometry.center()`: translate every vertex by the negated
bounding-box centroid, as invoked by `geometry.center()` in `handleFile`. -/
def BufferGeometry.center (g : BufferGeometry) : BufferGeometry :=
  ⟨g.vertices.map (fun v => v.sub (boxCenterV g.vertices))⟩

section FoldShift

theorem foldl_min_map_add (c : ℚ) :
    ∀ (t : List ℚ) (a : ℚ),
      (t.map (fun x => c + x)).foldl min (c + a) = c + t.foldl min a := by
  intro t
  induction t with
  | nil => intro a; rfl
  | cons b t ih =>
      intro a
      simp only [List.map_cons, List.foldl_cons]
      rw [min_add_add_left c a b]
      exact ih _

theorem foldl_max_map_add (c : ℚ) :
    ∀ (t : List ℚ) (a : ℚ),
      (t.map (fun x => c + x)).foldl max (c + a) = c + t.foldl max a := by
  intro t
  induction t with
  | nil => intro a; rfl
  | cons b t ih =>
      intro a
      simp only [List.map_cons, List.foldl_cons]
      rw [max_add_add_left c a b]
      exact ih _

theorem foldl_min_map_sub (c : ℚ) :
    ∀ (t : List ℚ) (a : ℚ),
      (t.map (fun x => x - c)).foldl min (a - c) = t.foldl min a - c := by
  intro t
  induction t with
  | nil => intro a; rfl
  | cons b t ih =>
      intro a
      simp only [List.map_cons, List.foldl_cons]
      rw [min_sub_sub_right a b c]
      exact ih _

theorem foldl_max_map_sub (c : ℚ) :
    ∀ (t : List ℚ) (a : ℚ),
      (t.map (fun x => x - c)).foldl max (a - c) = t.foldl max a - c := by
  intro t
  induction t with
  | nil => intro a; rfl
  | cons b t ih =>
      intro a
      simp only [List.map_cons, List.foldl_cons]
      rw [max_sub_sub_right a b c]
      exact ih _

theorem boxCenterQ_map_add (c : ℚ) (l : List ℚ) (h : l ≠ []) :
    boxCenterQ (l.map (fun x => c + x)) = c + boxCenterQ l := by
  cases l with
  | nil => exact absurd rfl h
  | cons a t =>
      simp only [boxCenterQ, List.map_cons]
      rw [foldl_min_map_add, foldl_max_map_add]
      ring

theorem boxCenterQ_map_sub (c : ℚ) (l : List ℚ) (h : l ≠ []) :
    boxCenterQ (l.map (fun x => x - c)) = boxCenterQ l - c := by
  cases l with
  | nil => exact absurd rfl h
  | cons a t =>
      simp only [boxCenterQ, List.map_cons]
      rw [foldl_min_map_sub, foldl_max_map_sub]
      ring

end FoldShift

theorem boxCenterV_nil : boxCenterV [] = Vec3.zero := rfl

theorem map_x_add (c : Vec3) (vs : List Vec3) :
    (vs.map (fun v => c.add v)).map Vec3.x = (vs.map Vec3.x).map (fun q => c.x + q) := by
  simp [Vec3.add, List.map_map, Function.comp]

theorem map_y_add (c : Vec3) (vs : List Vec3) :
    (vs.map (fun v => c.add v)).map Vec3.y = (vs.map Vec3.y).map (fun q => c.y + q) := by
  simp [Vec3.add, List.map_map, Function.comp]

theorem map_z_add (c : Vec3) (vs : List Vec3) :
    (vs.map (fun v => c.add v)).map Vec3.z = (vs.map Vec3.z).map (fun q => c.z + q) := by
  simp [Vec3.add, List.map_map, Function.comp]

theorem map_x_sub (c : Vec3) (vs : List Vec3) :
    (vs.map (fun v => v.sub c)).map Vec3.x = (vs.map Vec3.x).map (fun q => q - c.x) := by
  simp [Vec3.sub, List.map_map, Function.comp]

theorem map_y_sub (c : Vec3) (vs : List Vec3) :
    (vs.map (fun v => v.sub c)).map Vec3.y = (vs.map Vec3.y).map (fun q => q - c.y) := by
  simp [Vec3.sub, List.map_map, Function.comp]

theorem map_z_sub (c : Vec3) (vs : List Vec3) :
    (vs.map (fun v => v.sub c)).map Vec3.z = (vs.map Vec3.z).map (fun q => q - c.z) := by
  simp [Vec3.sub, List.map_map, Function.comp]

theorem boxCenterV_map_add (c : Vec3) (vs : List Vec3) (h : vs ≠ []) :
    boxCenterV (vs.map (fun v => c.add v)) = c.add (boxCenterV vs) := by
  have hx : (vs.map Vec3.x) ≠ [] := fun hc => h (List.map_eq_nil_iff.mp hc)
  have hy : (vs.map Vec3.y) ≠ [] := fun hc => h (List.map_eq_nil_iff.mp hc)
  have hz : (vs.map Vec3.z) ≠ [] := fun hc => h (List.map_eq_nil_iff.mp hc)
  unfold boxCenterV
  rw [map_x_add, map_y_add, map_z_add,
    boxCenterQ_map_add _ _ hx, boxCenterQ_map_add _ _ hy, boxCenterQ_map_add _ _ hz]
  rfl

theorem boxCenterV_map_sub (c : Vec3) (vs : List Vec3) (h : vs ≠ []) :
    boxCenterV (vs.map (fun v => v.sub c)) = (boxCenterV vs).sub c := by
  have hx : (vs.map Vec3.x) ≠ [] := fun hc => h (List.map_eq_nil_iff.mp hc)
  have hy : (vs.map Vec3.y) ≠ [] := fun hc => h (List.map_eq_nil_iff.mp hc)
  have hz : (vs.map Vec3.z) ≠ [] := fun hc => h (List.map_eq_nil_iff.mp hc)
  unfold boxCenterV
  rw [map_x_sub, map_y_sub, map_z_sub,
    boxCenterQ_map_sub _ _ hx, boxCenterQ_map_sub _ _ hy, boxCenterQ_map_sub _ _ hz]
  rfl

/-! ## The hierarchical `Object` variant (three.js `Object3D` scene graph)

A node is embedded with the fields the pipeline reads or writes: the
`isMesh` marker, the material, the geometry's vertex positions (empty and
irrelevant for non-mesh grouping nodes), the node's local position, and its
children.  The source never sets a rotation or scale before normalization, so
the world transform of a node is the sum of the positions on its root path. -/

/-- The fields of `MeshStandardMaterial` that `prepareObject` sets. -/
structure Material where
  color : String
  roughness : ℚ
  metalness : ℚ
  deriving DecidableEq, Repr

/-- The fixed uniform appearance `prepareObject` installs:
`{ color: "#c6c6c6", roughness: 0.65, metalness: 0.1 }`. -/
def uniformMaterial : Material := ⟨"#c6c6c6", 65/100, 1/10⟩

/-- A three.js `Object3D` scene node (mesh or grouping node). -/
inductive Obj3D : Type where
  | mk (isMesh : Bool) (mat : Material) (verts : List Vec3) (pos : Vec3)
      (children : List Obj3D)

def Obj3D.isMesh : Obj3D → Bool
  | .mk m _ _ _ _ => m

def Obj3D.mat : Obj3D → Material
  | .mk _ mat _ _ _ => mat

def Obj3D.verts : Obj3D → List Vec3
  | .mk _ _ v _ _ => v

def Obj3D.pos : Obj3D → Vec3
  | .mk _ _ _ p _ => p

def Obj3D.children : Obj3D → List Obj3D
  | .mk _ _ _ _ cs => cs

/-- Replace a node's position, keeping everything else
(`object.position.sub(center)` only writes the root's position). -/
def Obj3D.setPos : Obj3D → Vec3 → Obj3D
  | .mk m mat v _ cs, q => .mk m mat v q cs

mutual

/-- The `object.traverse` pass of `prepareObject`: every mesh node's material
is replaced by `uniformMaterial`; other nodes are left as they are. -/
def overrideMats : Obj3D → Obj3D
  | .mk m mat v p cs => .mk m (if m then uniformMaterial else mat) v p (overrideMatsList cs)

def overrideMatsList : List Obj3D → List Obj3D
  | [] => []
  | c :: cs => overrideMats c :: overrideMatsList cs

end

mutual

/-- World-space vertex positions of all mesh nodes in a subtree
(`Box3.setFromObject` collects geometry in world coordinates; with only
translations set, each subtree contributes its vertices shifted by the
accumulated positions). -/
def worldVerts : Obj3D → List Vec3
  | .mk m _ v p cs =>
      (((if m then v else []) ++ worldVertsList cs)).map (fun w => p.add w)

def worldVertsList : List Obj3D → List Vec3
  | [] => []
  | c :: cs => worldVerts c ++ worldVertsList cs

end

/-- `centerObject` from both variants: compute the world bounding box of the
object, and subtract its centroid from the object's position. -/
def centerObject (o : Obj3D) : Obj3D :=
  o.setPos (o.pos.sub (boxCenterV (worldVerts o)))

/-- `prepareObject` from both variants: override every mesh descendant's
material with `uniformMaterial`, then recenter the object. -/
def prepareObject (o : Obj3D) : Obj3D :=
  centerObject (overrideMats o)

mutual

/-- Self-plus-descendants, in `object.traverse` order. -/
def allNodes : Obj3D → List Obj3D
  | .mk m mat v p cs => .mk m mat v p cs :: allNodesList cs

def allNodesList : List Obj3D → List Obj3D
  | [] => []
  | c :: cs => allNodes c ++ allNodesList cs

end

/-- The untranslated ("core") world vertices of a node: its own mesh vertices
plus its children's world vertices, before adding the node's own position. -/
def coreOf : Obj3D → List Vec3
  | .mk m _ v _ cs => (if m then v else []) ++ worldVertsList cs

theorem worldVerts_eq_core (o : Obj3D) :
    worldVerts o = (coreOf o).map (fun w => o.pos.add w) := by
  cases o; rfl

theorem coreOf_setPos (o : Obj3D) (q : Vec3) : coreOf (o.setPos q) = coreOf o := by
  cases o; rfl

theorem setPos_pos (o : Obj3D) (q : Vec3) : (o.setPos q).pos = q := by
  cases o; rfl

theorem setPos_setPos (o : Obj3D) (q r : Vec3) : (o.setPos q).setPos r = o.setPos r := by
  cases o; rfl

theorem setPos_self (o : Obj3D) : o.setPos o.pos = o := by
  cases o; rfl

mutual

theorem worldVerts_override : ∀ o : Obj3D, worldVerts (overrideMats o) = worldVerts o
  | .mk m mat v p cs => by
      simp only [overrideMats, worldVerts, worldVertsList_override cs]

theorem worldVertsList_override :
    ∀ cs : List Obj3D, worldVertsList (overrideMatsList cs) = worldVertsList cs
  | [] => rfl
  | c :: cs => by
      simp only [overrideMatsList, worldVertsList, worldVerts_override c,
        worldVertsList_override cs]

end

mutual

theorem overrideMats_idem : ∀ o : Obj3D, overrideMats (overrideMats o) = overrideMats o
  | .mk m mat v p cs => by
      simp only [overrideMats, overrideMatsList_idem cs]
      cases m <;> simp

theorem overrideMatsList_idem :
    ∀ cs : List Obj3D, overrideMatsList (overrideMatsList cs) = overrideMatsList cs
  | [] => rfl
  | c :: cs => by
      simp only [overrideMatsList, overrideMats_idem c, overrideMatsList_idem cs]

end

theorem overrideMats_setPos (o : Obj3D) (q : Vec3) :
    overrideMats (o.setPos q) = (overrideMats o).setPos q := by
  cases o; rfl

theorem overrideMats_pos (o : Obj3D) : (overrideMats o).pos = o.pos := by
  cases o; rfl

/-! ## Normalization: recentring is exact and idempotent -/

theorem boxCenterV_center_eq_zero (g : BufferGeometry) :
    boxCenterV g.center.vertices = Vec3.zero := by
  by_cases h : g.vertices = []
  · simp [BufferGeometry.center, h, boxCenterV_nil]
  · unfold BufferGeometry.center
    simp only
    rw [boxCenterV_map_sub _ _ h, Vec3.sub_self_eq]

theorem center_idem (g : BufferGeometry) : g.center.center = g.center := by
  have hz := boxCenterV_center_eq_zero g
  show BufferGeometry.mk
      (g.center.vertices.map (fun v => v.sub (boxCenterV g.center.vertices)))
    = g.center
  rw [hz]
  simp [Vec3.sub_zero_eq]

theorem worldVerts_setPos (o : Obj3D) (q : Vec3) :
    worldVerts (o.setPos q) = (coreOf o).map (fun w => q.add w) := by
  rw [worldVerts_eq_core, coreOf_setPos, setPos_pos]

theorem boxCenterV_world_center (o : Obj3D) :
    boxCenterV (worldVerts (centerObject o)) = Vec3.zero := by
  unfold centerObject
  rw [worldVerts_setPos]
  by_cases h : coreOf o = []
  · simp [h, boxCenterV_nil]
  · rw [boxCenterV_map_add _ _ h, worldVerts_eq_core, boxCenterV_map_add _ _ h,
      Vec3.sub_add_eq_neg, Vec3.neg_add_eq_zero]

theorem boxCenterV_world_prepare (o : Obj3D) :
    boxCenterV (worldVerts (prepareObject o)) = Vec3.zero := by
  unfold prepareObject
  exact boxCenterV_world_center (overrideMats o)

theorem centerObject_of_center_zero (o : Obj3D)
    (h : boxCenterV (worldVerts o) = Vec3.zero) : centerObject o = o := by
  unfold centerObject
  rw [h, Vec3.sub_zero_eq, setPos_self]

theorem overrideMats_centerObject_override (o : Obj3D) :
    overrideMats (centerObject (overrideMats o)) = centerObject (overrideMats o) := by
  unfold centerObject
  rw [overrideMats_setPos, overrideMats_idem]

theorem prepareObject_idem (o : Obj3D) :
    prepareObject (prepareObject o) = prepareObject o := by
  unfold prepareObject
  rw [overrideMats_centerObject_override]
  exact centerObject_of_center_zero _ (boxCenterV_world_center (overrideMats o))

/-! ## Material override: every mesh descendant gets the uniform material,
non-mesh nodes are untouched by the traversal -/

theorem allNodes_eq (o : Obj3D) : allNodes o = o :: allNodesList o.children := by
  cases o
  simp [allNodes, Obj3D.children]

theorem setPos_isMesh (o : Obj3D) (q : Vec3) : (o.setPos q).isMesh = o.isMesh := by
  cases o; rfl

theorem setPos_mat (o : Obj3D) (q : Vec3) : (o.setPos q).mat = o.mat := by
  cases o; rfl

theorem setPos_children (o : Obj3D) (q : Vec3) : (o.setPos q).children = o.children := by
  cases o; rfl

mutual

theorem meshMat_override :
    ∀ o : Obj3D, ∀ n ∈ allNodes (overrideMats o), n.isMesh = true → n.mat = uniformMaterial
  | .mk m mat v p cs => by
      intro n hn hm
      simp only [overrideMats, allNodes, List.mem_cons] at hn
      rcases hn with rfl | hn
      · simp only [Obj3D.isMesh] at hm
        simp [Obj3D.mat, hm]
      · exact meshMat_overrideList cs n hn hm

theorem meshMat_overrideList :
    ∀ cs : List Obj3D, ∀ n ∈ allNodesList (overrideMatsList cs),
      n.isMesh = true → n.mat = uniformMaterial
  | [] => by
      intro n hn
      simp [overrideMatsList, allNodesList] at hn
  | c :: cs => by
      intro n hn hm
      simp only [overrideMatsList, allNodesList, List.mem_append] at hn
      rcases hn with hn | hn
      · exact meshMat_override c n hn hm
      · exact meshMat_overrideList cs n hn hm

end

theorem meshMat_prepare (o : Obj3D) :
    ∀ n ∈ allNodes (prepareObject o), n.isMesh = true → n.mat = uniformMaterial := by
  intro n hn hm
  unfold prepareObject centerObject at hn
  rw [allNodes_eq, setPos_children] at hn
  rcases List.mem_cons.mp hn with rfl | hn
  · rw [setPos_isMesh] at hm
    rw [setPos_mat]
    exact meshMat_override o (overrideMats o)
      (by rw [allNodes_eq]; exact List.mem_cons_self _ _) hm
  · exact meshMat_override o n
      (by rw [allNodes_eq]; exact List.mem_cons_of_mem _ hn) hm

mutual

/-- Comparator between a tree and the result of a transformation pass on it:
mesh markers, vertex buffers, positions, and tree shape are identical, and
every non-mesh node keeps its material (a mesh node's material is exempt). -/
def untouchedNonMesh : Obj3D → Obj3D → Prop
  | .mk m mat v p cs, .mk m' mat' v' p' cs' =>
      m = m' ∧ v = v' ∧ p = p' ∧ (m = true ∨ mat = mat') ∧ untouchedNonMeshList cs cs'

def untouchedNonMeshList : List Obj3D → List Obj3D → Prop
  | [], [] => True
  | c :: cs, d :: ds => untouchedNonMesh c d ∧ untouchedNonMeshList cs ds
  | _, _ => False

end

mutual

theorem untouched_override : ∀ o : Obj3D, untouchedNonMesh o (overrideMats o)
  | .mk m mat v p cs => by
      refine ⟨rfl, rfl, rfl, ?_, untouched_overrideList cs⟩
      cases m
      · exact Or.inr rfl
      · exact Or.inl rfl

theorem untouched_overrideList :
    ∀ cs : List Obj3D, untouchedNonMeshList cs (overrideMatsList cs)
  | [] => by simp [overrideMatsList, untouchedNonMeshList]
  | c :: cs => by
      simp only [overrideMatsList, untouchedNonMeshList]
      exact ⟨untouched_override c, untouched_overrideList cs⟩

end

/-! ## Format dispatch and the model-state holder (`handleFile`)

`handleFile` is shared verbatim by both variants.  Its asynchronous file reads
only sequence the steps, so a single load is embedded as a function from the
pre-call state to the post-call state together with the ordered list of
`setStatus` calls (the status trace) and the `console.error` diagnostic
channel.  The parser collaborators (`STLLoader.parse`, `OBJLoader.parse`) are
not part of the repository and are passed in as `Except`-returning
parameters, mirroring that they may throw on malformed content. -/

/-- JavaScript `String.prototype.split` with separator `"."`, on the list of
characters: it always returns at least one (possibly empty) piece. -/
def splitOnDot : List Char → List (List Char)
  | [] => [[]]
  | c :: cs =>
      match splitOnDot cs with
      | [] => [[]]
      | h :: t => if c = '.' then [] :: h :: t else (c :: h) :: t

/-- JavaScript `Array.prototype.pop()` on the result of a split: the last
element.  `split` never yields an empty array, so the `[]` case is unreachable
and the optional chaining `?.` in the source never short-circuits. -/
def lastOf : List (List Char) → List Char
  | [] => []
  | [x] => x
  | _ :: x :: t => lastOf (x :: t)

/-- The extension the source computes:
`file.name.split(".").pop()?.toLowerCase()`. -/
def extOf (name : String) : String :=
  String.mk ((lastOf (splitOnDot name.data)).map Char.toLower)

def SUPPORTED_EXTENSIONS : List String := ["obj", "stl"]

/-- `ModelPayload` from the source: the tagged `Geometry`/`Object` union. -/
inductive ModelPayload : Type where
  | geometry (g : BufferGeometry)
  | object (o : Obj3D)

/-- A `File` handed to `handleFile`: its name plus the binary and text views
(`file.arrayBuffer()` / `file.text()`); the branch taken decides which view is
read. -/
structure SourceFile where
  name : String
  bytes : List Nat
  text : String

/-- The two React state cells owned by `App`: `model` and `status`. -/
structure AppState where
  model : Option ModelPayload
  status : String

/-- Result of one `handleFile` call: the final state, the ordered trace of
`setStatus` calls made during the call, and the `console.error` output. -/
structure LoadResult where
  state : AppState
  trace : List String
  console : List String

def unsupportedMessage : String := "Unsupported file type. Use .obj or .stl."

def failedMessage : String := "Failed to load model. Check the console for details."

def initialStatus : String := "Drop an OBJ or STL here, or use the picker."

def loadingMessage (name : String) : String := "Loading " ++ name ++ "..."

def loadedMessage (name : String) : String := "Loaded " ++ name

/-- `handleFile` from both variants: classify by extension (before any status
change), reject unsupported types, otherwise announce `Loading`, parse with
the collaborator for the branch, normalize, store the model, and announce
`Loaded`; any exception from the `try` block is caught, logged to the console,
and replaced by the generic failure status. -/
def handleFile (pS : List Nat → Except String BufferGeometry)
    (pO : String → Except String Obj3D) (st : AppState) (f : SourceFile) :
    LoadResult :=
  let ext := extOf f.name
  if ext == "" || !(SUPPORTED_EXTENSIONS.contains ext) then
    { state := { model := st.model, status := unsupportedMessage },
      trace := [unsupportedMessage], console := [] }
  else if ext == "stl" then
    match pS f.bytes with
    | .ok g =>
        { state := { model := some (.geometry g.center),
                     status := loadedMessage f.name },
          trace := [loadingMessage f.name, loadedMessage f.name], console := [] }
    | .error e =>
        { state := { model := st.model, status := failedMessage },
          trace := [loadingMessage f.name, failedMessage], console := [e] }
  else
    match pO f.text with
    | .ok o =>
        { state := { model := some (.object (prepareObject o)),
                     status := loadedMessage f.name },
          trace := [loadingMessage f.name, loadedMessage f.name], console := [] }
    | .error e =>
        { state := { model := st.model, status := failedMessage },
          trace := [loadingMessage f.name, failedMessage], console := [e] }

/-! ## Dual-mode variant: the orbit / gizmo interaction machine

State observed by the `Scene` component of the dual-mode variant: the
`showGizmo` flag (mode `GizmoRotate` when true, `OrbitOnly` when false), the
mounted `TransformControls`' dragging flag, and the `OrbitControls`' mutable
`enabled` flag (`orbitRef.current.enabled`, the code's `isOrbitEnabled()`).

Events: `draggingChanged v` is the `onDraggingChanged` callback, which only a
mounted `TransformControls` can fire — the gizmo is rendered only while
`showGizmo` is true, hence the `canFire` guard; `setShowGizmo b` is the
mode toggle, after which React re-runs the `useEffect` that forces
`enabled := true` when the gizmo was switched off, and unmounts the
`TransformControls` (destroying its dragging flag). -/

structure SceneState where
  showGizmo : Bool
  dragging : Bool
  orbitEnabled : Bool
  deriving DecidableEq, Repr

inductive SceneEvent : Type where
  | draggingChanged (v : Bool)
  | setShowGizmo (b : Bool)
  deriving DecidableEq, Repr

/-- Initial state: `useState(true)` for `showGizmo`, no drag in progress,
`OrbitControls` enabled by default. -/
def initScene : SceneState :=
  { showGizmo := true, dragging := false, orbitEnabled := true }

def applyEvent : SceneEvent → SceneState → SceneState
  | .draggingChanged v, s => { s with dragging := v, orbitEnabled := !v }
  | .setShowGizmo b, s =>
      if b then { s with showGizmo := true }
      else { showGizmo := false, dragging := false, orbitEnabled := true }

def canFire : SceneEvent → SceneState → Prop
  | .draggingChanged _, s => s.showGizmo = true
  | .setShowGizmo _, _ => True

inductive Reachable : SceneState → Prop
  | init : Reachable initScene
  | step {s : SceneState} {e : SceneEvent} :
      Reachable s → canFire e s → Reachable (applyEvent e s)

/-- The props the dual-mode `Scene` passes to `OrbitControls`: the mutable
`enabled` flag and the `enableRotate={!showGizmo}` prop. -/
structure OrbitProps where
  enabled : Bool
  enableRotate : Bool
  deriving DecidableEq, Repr

def orbitProps (s : SceneState) : OrbitProps :=
  { enabled := s.orbitEnabled, enableRotate := !s.showGizmo }

/-- Inductive invariant of the interaction machine. -/
def SceneInv (s : SceneState) : Prop :=
  (s.dragging = true → s.showGizmo = true ∧ s.orbitEnabled = false) ∧
  (s.dragging = false → s.orbitEnabled = true)

theorem reachable_inv {s : SceneState} (h : Reachable s) : SceneInv s := by
  induction h with
  | init =>
      refine ⟨fun hd => ?_, fun _ => rfl⟩
      simp [initScene] at hd
  | @step s e hr hc ih =>
      cases e with
      | draggingChanged v =>
          cases v
          · exact ⟨fun hd => by simp [applyEvent] at hd, fun _ => by simp [applyEvent]⟩
          · refine ⟨fun _ => ⟨?_, ?_⟩, fun hd => ?_⟩
            · simpa [applyEvent] using hc
            · simp [applyEvent]
            · simp [applyEvent] at hd
      | setShowGizmo b =>
          cases b
          · exact ⟨fun hd => by simp [applyEvent] at hd, fun _ => by simp [applyEvent]⟩
          · refine ⟨fun hd => ?_, fun hd => ?_⟩
            · have hd' : s.dragging = true := by simpa [applyEvent] using hd
              exact ⟨by simp [applyEvent], by simp [applyEvent]; exact (ih.1 hd').2⟩
            · have hd' : s.dragging = false := by simpa [applyEvent] using hd
              simpa [applyEvent] using ih.2 hd'

/-! ## Properties of the extension computation -/

theorem splitOnDot_cons_eq (c : Char) (cs hd : List Char) (tl : List (List Char))
    (hs : splitOnDot cs = hd :: tl) :
    splitOnDot (c :: cs) = if c = '.' then [] :: hd :: tl else (c :: hd) :: tl := by
  simp only [splitOnDot, hs]

theorem splitOnDot_ne_nil : ∀ l : List Char, splitOnDot l ≠ []
  | [] => by simp [splitOnDot]
  | c :: cs => by
      rcases hs : splitOnDot cs with _ | ⟨hd, tl⟩
      · exact absurd hs (splitOnDot_ne_nil cs)
      · rw [splitOnDot_cons_eq c cs hd tl hs]
        split <;> simp

theorem splitOnDot_no_dot : ∀ l : List Char, '.' ∉ l → splitOnDot l = [l]
  | [], _ => rfl
  | c :: cs, h => by
      have hc : ¬ c = '.' := fun hc => h (hc ▸ List.mem_cons_self c cs)
      have hcs : '.' ∉ cs := fun hm => h (List.mem_cons_of_mem c hm)
      rw [splitOnDot_cons_eq c cs cs [] (splitOnDot_no_dot cs hcs), if_neg hc]

theorem splitOnDot_two_le : ∀ l : List Char, '.' ∈ l → 2 ≤ (splitOnDot l).length
  | c :: cs, h => by
      rcases hs : splitOnDot cs with _ | ⟨hd, tl⟩
      · exact absurd hs (splitOnDot_ne_nil cs)
      · rw [splitOnDot_cons_eq c cs hd tl hs]
        by_cases hc : c = '.'
        · simp [hc]
        · have hcs : '.' ∈ cs := by
            rcases List.mem_cons.mp h with h' | h'
            · exact absurd h'.symm hc
            · exact h'
          have h2 := splitOnDot_two_le cs hcs
          rw [hs] at h2
          simpa [hc] using h2

/-- Modelled from the spec's words (data-model entry `Extension`): the suffix
of the filename after the last `.` — and the whole name when no `.` occurs,
where the spec instead demands the Unsupported outcome. -/
def afterLastDot : List Char → List Char
  | [] => []
  | c :: cs => if c ≠ '.' ∧ '.' ∉ cs then c :: afterLastDot cs else afterLastDot cs

theorem afterLastDot_no_dot : ∀ l : List Char, '.' ∉ l → afterLastDot l = l
  | [], _ => rfl
  | c :: cs, h => by
      have hc : ¬ c = '.' := fun hc => h (hc ▸ List.mem_cons_self c cs)
      have hcs : '.' ∉ cs := fun hm => h (List.mem_cons_of_mem c hm)
      simp only [afterLastDot, if_pos (And.intro hc hcs)]
      rw [afterLastDot_no_dot cs hcs]

theorem lastOf_cons_cons (x y : List Char) (t : List (List Char)) :
    lastOf (x :: y :: t) = lastOf (y :: t) := rfl

theorem lastOf_splitOnDot : ∀ l : List Char, lastOf (splitOnDot l) = afterLastDot l
  | [] => rfl
  | c :: cs => by
      have ih := lastOf_splitOnDot cs
      rcases hs : splitOnDot cs with _ | ⟨hd, tl⟩
      · exact absurd hs (splitOnDot_ne_nil cs)
      · rw [splitOnDot_cons_eq c cs hd tl hs]
        by_cases hc : c = '.'
        · rw [if_pos hc, lastOf_cons_cons, ← hs, ih]
          have hni : ¬ (c ≠ '.' ∧ '.' ∉ cs) := fun hn => hn.1 hc
          rw [afterLastDot, if_neg hni]
        · rw [if_neg hc]
          by_cases hdot : '.' ∈ cs
          · have h2 := splitOnDot_two_le cs hdot
            rw [hs] at h2
            rcases tl with _ | ⟨x, t⟩
            · simp at h2
            · rw [lastOf_cons_cons, ← lastOf_cons_cons hd, ← hs, ih]
              have hni : ¬ (c ≠ '.' ∧ '.' ∉ cs) := fun hn => hn.2 hdot
              rw [afterLastDot, if_neg hni]
          · have h1 := splitOnDot_no_dot cs hdot
            rw [hs] at h1
            injection h1 with h1a h1b
            rw [h1a, h1b, afterLastDot, if_pos (And.intro hc hdot),
              afterLastDot_no_dot cs hdot]
            rfl

/-! ## Case analysis of `handleFile` -/

theorem handleFile_unsupported (pS : List Nat → Except String BufferGeometry)
    (pO : String → Except String Obj3D) (st : AppState) (f : SourceFile)
    (h : SUPPORTED_EXTENSIONS.contains (extOf f.name) = false) :
    handleFile pS pO st f =
      { state := { model := st.model, status := unsupportedMessage },
        trace := [unsupportedMessage], console := [] } := by
  have h' : extOf f.name ∉ SUPPORTED_EXTENSIONS := by
    simpa [SUPPORTED_EXTENSIONS] using h
  simp [handleFile, h']

theorem handleFile_stl_ok (pS : List Nat → Except String BufferGeometry)
    (pO : String → Except String Obj3D) (st : AppState) (f : SourceFile)
    (g : BufferGeometry) (hext : extOf f.name = "stl")
    (hp : pS f.bytes = Except.ok g) :
    handleFile pS pO st f =
      { state := { model := some (.geometry g.center),
                   status := loadedMessage f.name },
        trace := [loadingMessage f.name, loadedMessage f.name], console := [] } := by
  simp [handleFile, hext, hp, SUPPORTED_EXTENSIONS]

theorem handleFile_stl_err (pS : List Nat → Except String BufferGeometry)
    (pO : String → Except String Obj3D) (st : AppState) (f : SourceFile)
    (e : String) (hext : extOf f.name = "stl")
    (hp : pS f.bytes = Except.error e) :
    handleFile pS pO st f =
      { state := { model := st.model, status := failedMessage },
        trace := [loadingMessage f.name, failedMessage], console := [e] } := by
  simp [handleFile, hext, hp, SUPPORTED_EXTENSIONS]

theorem handleFile_obj_ok (pS : List Nat → Except String BufferGeometry)
    (pO : String → Except String Obj3D) (st : AppState) (f : SourceFile)
    (o : Obj3D) (hext : extOf f.name = "obj")
    (hp : pO f.text = Except.ok o) :
    handleFile pS pO st f =
      { state := { model := some (.object (prepareObject o)),
                   status := loadedMessage f.name },
        trace := [loadingMessage f.name, loadedMessage f.name], console := [] } := by
  simp [handleFile, hext, hp, SUPPORTED_EXTENSIONS]

theorem handleFile_obj_err (pS : List Nat → Except String BufferGeometry)
    (pO : String → Except String Obj3D) (st : AppState) (f : SourceFile)
    (e : String) (hext : extOf f.name = "obj")
    (hp : pO f.text = Except.error e) :
    handleFile pS pO st f =
      { state := { model := st.model, status := failedMessage },
        trace := [loadingMessage f.name, failedMessage], console := [e] } := by
  simp [handleFile, hext, hp, SUPPORTED_EXTENSIONS]

theorem supported_cases (x : String)
    (h : SUPPORTED_EXTENSIONS.contains x = true) : x = "obj" ∨ x = "stl" := by
  simpa [SUPPORTED_EXTENSIONS] using h

/-! ## Shared concrete inputs for the claim witnesses -/

def stubSTL : List Nat → Except String BufferGeometry := fun _ => .ok ⟨[]⟩

def stubOBJ : String → Except String Obj3D :=
  fun _ => .ok (.mk false ⟨"", 0, 0⟩ [] ⟨0, 0, 0⟩ [])

def failSTL : List Nat → Except String BufferGeometry :=
  fun _ => .error "STL: truncated buffer"

def demoState : AppState :=
  { model := some (.geometry ⟨[⟨1, 1, 1⟩]⟩), status := initialStatus }

def redMat : Material := ⟨"#ff0000", 1/2, 1/2⟩

def demoObject : Obj3D :=
  .mk false redMat [] ⟨0, 0, 0⟩ [.mk true redMat [⟨2, 2, 2⟩] ⟨0, 0, 0⟩ []]

def demoMeshChild : Obj3D := .mk true uniformMaterial [⟨2, 2, 2⟩] ⟨0, 0, 0⟩ []

def demoEmptyObject : Obj3D := .mk false redMat [] ⟨1, 2, 3⟩ []

/-! ## The claims -/

/-- C1: in the dual-mode variant, for every reachable state of the
interaction machine, while the drag flag is true the orbit control's
`enabled` flag (`isOrbitEnabled()`) is false, and whenever the drag flag is
false in gizmo mode the orbit control is enabled — orbit is suspended exactly
during an active manipulator drag and restored the instant it ends. -/
theorem orbit_gizmo_mutual_exclusion (s : SceneState) (h : Reachable s) :
    (s.dragging = true → s.orbitEnabled = false) ∧
    (s.dragging = false → s.showGizmo = true → s.orbitEnabled = true) :=
  ⟨fun hd => ((reachable_inv h).1 hd).2, fun hd _ => (reachable_inv h).2 hd⟩

/-- Witness for C1: the state reached by starting a manipulator drag from the
initial state. -/
theorem orbit_gizmo_mutual_exclusion_witness :
    ((applyEvent (SceneEvent.draggingChanged true) initScene).dragging = true →
      (applyEvent (SceneEvent.draggingChanged true) initScene).orbitEnabled = false) ∧
    ((applyEvent (SceneEvent.draggingChanged true) initScene).dragging = false →
      (applyEvent (SceneEvent.draggingChanged true) initScene).showGizmo = true →
      (applyEvent (SceneEvent.draggingChanged true) initScene).orbitEnabled = true) :=
  orbit_gizmo_mutual_exclusion _ (Reachable.step Reachable.init rfl)

/-- C2: for every file whose computed extension (the lower-cased last
dot-separated component of the name) is outside the supported set, `handleFile`
sets the unsupported status, keeps the prior model, and returns a result that
is the same for every choice of parser collaborators — no parser is invoked. -/
theorem unsupported_load_keeps_model (pS : List Nat → Except String BufferGeometry)
    (pO : String → Except String Obj3D) (st : AppState) (f : SourceFile)
    (h : SUPPORTED_EXTENSIONS.contains (extOf f.name) = false) :
    handleFile pS pO st f =
      { state := { model := st.model, status := unsupportedMessage },
        trace := [unsupportedMessage], console := [] } :=
  handleFile_unsupported pS pO st f h

/-- Witness for C2: loading `notes.txt` over a previously loaded model. -/
theorem unsupported_load_keeps_model_witness :
    handleFile stubSTL stubOBJ demoState { name := "notes.txt", bytes := [], text := "" } =
      { state := { model := demoState.model, status := unsupportedMessage },
        trace := [unsupportedMessage], console := [] } :=
  unsupported_load_keeps_model stubSTL stubOBJ demoState _ (by decide)

/-- C3: whenever the parser collaborator for the taken branch fails,
`handleFile` keeps the prior model, sets the fixed generic failure status (the
failure detail goes only to the console channel); and the current model is
ever replaced only with the fully normalized result of a successful parse. -/
theorem parse_failure_contained (pS : List Nat → Except String BufferGeometry)
    (pO : String → Except String Obj3D) (st : AppState) (f : SourceFile) :
    (∀ e : String,
      (extOf f.name = "stl" ∧ pS f.bytes = Except.error e) ∨
      (extOf f.name = "obj" ∧ pO f.text = Except.error e) →
        (handleFile pS pO st f).state.model = st.model ∧
        (handleFile pS pO st f).state.status = failedMessage ∧
        (handleFile pS pO st f).console = [e]) ∧
    ((handleFile pS pO st f).state.model ≠ st.model →
      (∃ g, pS f.bytes = Except.ok g ∧
        (handleFile pS pO st f).state.model = some (ModelPayload.geometry g.center)) ∨
      (∃ o, pO f.text = Except.ok o ∧
        (handleFile pS pO st f).state.model =
          some (ModelPayload.object (prepareObject o)))) := by
  constructor
  · intro e he
    rcases he with ⟨hext, hp⟩ | ⟨hext, hp⟩
    · rw [handleFile_stl_err pS pO st f e hext hp]
      exact ⟨rfl, rfl, rfl⟩
    · rw [handleFile_obj_err pS pO st f e hext hp]
      exact ⟨rfl, rfl, rfl⟩
  · intro hm
    by_cases hc : SUPPORTED_EXTENSIONS.contains (extOf f.name) = true
    · rcases supported_cases _ hc with hext | hext
      · cases hp : pO f.text with
        | ok o =>
            rw [handleFile_obj_ok pS pO st f o hext hp]
            exact Or.inr ⟨o, rfl, rfl⟩
        | error e =>
            rw [handleFile_obj_err pS pO st f e hext hp] at hm
            exact absurd rfl hm
      · cases hp : pS f.bytes with
        | ok g =>
            rw [handleFile_stl_ok pS pO st f g hext hp]
            exact Or.inl ⟨g, rfl, rfl⟩
        | error e =>
            rw [handleFile_stl_err pS pO st f e hext hp] at hm
            exact absurd rfl hm
    · have hc' : SUPPORTED_EXTENSIONS.contains (extOf f.name) = false := by
        revert hc
        cases SUPPORTED_EXTENSIONS.contains (extOf f.name) <;> simp
      rw [handleFile_unsupported pS pO st f hc'] at hm
      exact absurd rfl hm

/-- Witness for C3: a zero-byte `.stl` file whose parser raises. -/
theorem parse_failure_contained_witness :
    (handleFile failSTL stubOBJ demoState
        { name := "empty.stl", bytes := [], text := "" }).state.model = demoState.model ∧
    (handleFile failSTL stubOBJ demoState
        { name := "empty.stl", bytes := [], text := "" }).state.status = failedMessage ∧
    (handleFile failSTL stubOBJ demoState
        { name := "empty.stl", bytes := [], text := "" }).console = ["STL: truncated buffer"] :=
  (parse_failure_contained failSTL stubOBJ demoState _).1 "STL: truncated buffer"
    (Or.inl ⟨by decide, rfl⟩)

/-- C4: normalization is idempotent, exactly over the rational embedding (and
therefore within any floating-point tolerance): re-normalizing a normalized
model is the identity, and the re-computed bounding-box centroid of a
normalized model is zero, for both the `Geometry` and the `Object` variant. -/
theorem normalize_idempotent :
    (∀ g : BufferGeometry, g.center.center = g.center) ∧
    (∀ g : BufferGeometry, boxCenterV g.center.vertices = Vec3.zero) ∧
    (∀ o : Obj3D, prepareObject (prepareObject o) = prepareObject o) ∧
    (∀ o : Obj3D, boxCenterV (worldVerts (prepareObject o)) = Vec3.zero) :=
  ⟨center_idem, boxCenterV_center_eq_zero, prepareObject_idem, boxCenterV_world_prepare⟩

/-- C5: after `prepareObject`, every mesh-bearing node of the tree carries the
fixed uniform material whatever its source material was; the traversal pass
leaves every non-mesh (grouping) node untouched (same marker, geometry,
position, material, and shape); and normalization beyond that pass is exactly
the root recentring. -/
theorem normalize_uniform_material (o : Obj3D) :
    (∀ n ∈ allNodes (prepareObject o), n.isMesh = true → n.mat = uniformMaterial) ∧
    untouchedNonMesh o (overrideMats o) ∧
    prepareObject o = centerObject (overrideMats o) :=
  ⟨meshMat_prepare o, untouched_override o, rfl⟩

/-- Witness for C5: a red-material mesh child under a grouping root. -/
theorem normalize_uniform_material_witness :
    demoMeshChild.mat = uniformMaterial ∧
    untouchedNonMesh demoObject (overrideMats demoObject) :=
  ⟨(normalize_uniform_material demoObject).1 demoMeshChild
      (by
        simp [demoObject, demoMeshChild, prepareObject, centerObject, overrideMats,
          overrideMatsList, allNodes, allNodesList, worldVerts, worldVertsList, coreOf,
          boxCenterV, boxCenterQ, Vec3.add, Vec3.sub, Obj3D.setPos, Obj3D.pos, redMat,
          uniformMaterial])
      rfl,
    (normalize_uniform_material demoObject).2.1⟩

/-- C6: switching the dual-mode variant from gizmo mode to orbit-only mode
forces the orbit control's `enabled` flag to true immediately, from any state
— in particular regardless of stale drag state left by an interrupted drag. -/
theorem mode_switch_restores_orbit (s : SceneState) :
    (applyEvent (SceneEvent.setShowGizmo false) s).orbitEnabled = true := rfl

/-- C7 counterexample: the dotless filename `STL` is not classified
Unsupported — the code uses the whole lower-cased name as the extension, so
the load proceeds to the parser and reports `Loaded STL`. -/
theorem dotless_filename_supported_counterexample :
    '.' ∉ "STL".data ∧
    SUPPORTED_EXTENSIONS.contains (extOf "STL") = true ∧
    (handleFile stubSTL stubOBJ demoState
        { name := "STL", bytes := [], text := "" }).state.status = loadedMessage "STL" ∧
    (handleFile stubSTL stubOBJ demoState
        { name := "STL", bytes := [], text := "" }).trace ≠ [unsupportedMessage] :=
  ⟨by decide, by decide, by decide, by decide⟩

/-- C7 (amended): the compared token is always the lower-cased suffix of the
filename after the last dot, which for a dotless filename degenerates to the
whole lower-cased name (so a dotless name is not automatically Unsupported);
for names containing a dot this is exactly the claimed case-insensitive
last-suffix comparison. -/
theorem extension_is_suffix_after_last_dot (name : String) :
    extOf name = String.mk ((afterLastDot name.data).map Char.toLower) ∧
    ('.' ∉ name.data → extOf name = String.mk (name.data.map Char.toLower)) := by
  constructor
  · rw [extOf, lastOf_splitOnDot]
  · intro h
    rw [extOf, lastOf_splitOnDot, afterLastDot_no_dot _ h]

/-- Witness for C7's amended claim at a dotted and a dotless filename. -/
theorem extension_is_suffix_after_last_dot_witness :
    extOf "model.OBJ" = String.mk ((afterLastDot "model.OBJ".data).map Char.toLower) ∧
    extOf "STL" = String.mk ("STL".data.map Char.toLower) :=
  ⟨(extension_is_suffix_after_last_dot "model.OBJ").1,
   (extension_is_suffix_after_last_dot "STL").2 (by decide)⟩

/-- C8 counterexample: loading `notes.txt` never sets the `Loading` status —
the unsupported branch returns before `setStatus("Loading ...")`, so the trace
is exactly the unsupported message. -/
theorem unsupported_load_skips_loading_counterexample :
    (handleFile stubSTL stubOBJ demoState
        { name := "notes.txt", bytes := [], text := "" }).trace = [unsupportedMessage] ∧
    loadingMessage "notes.txt" ∉
      (handleFile stubSTL stubOBJ demoState
        { name := "notes.txt", bytes := [], text := "" }).trace :=
  ⟨by decide, by decide⟩

/-- C8 (amended): a load whose extension is supported first sets the status to
`Loading(filename)`; a load with an unsupported extension sets the unsupported
message directly, never passing through `Loading`. -/
theorem loading_status_transitions (pS : List Nat → Except String BufferGeometry)
    (pO : String → Except String Obj3D) (st : AppState) (f : SourceFile) :
    (SUPPORTED_EXTENSIONS.contains (extOf f.name) = true →
      (handleFile pS pO st f).trace.head? = some (loadingMessage f.name)) ∧
    (SUPPORTED_EXTENSIONS.contains (extOf f.name) = false →
      (handleFile pS pO st f).trace = [unsupportedMessage]) := by
  constructor
  · intro hc
    rcases supported_cases _ hc with hext | hext
    · cases hp : pO f.text with
      | ok o => rw [handleFile_obj_ok pS pO st f o hext hp]; rfl
      | error e => rw [handleFile_obj_err pS pO st f e hext hp]; rfl
    · cases hp : pS f.bytes with
      | ok g => rw [handleFile_stl_ok pS pO st f g hext hp]; rfl
      | error e => rw [handleFile_stl_err pS pO st f e hext hp]; rfl
  · intro hc
    rw [handleFile_unsupported pS pO st f hc]

/-- Witness for C8's amended claim: a supported load announces `Loading`
first. -/
theorem loading_status_transitions_witness :
    (handleFile stubSTL stubOBJ demoState
        { name := "cube.stl", bytes := [], text := "" }).trace.head? =
      some (loadingMessage "cube.stl") :=
  (loading_status_transitions stubSTL stubOBJ demoState _).1 (by decide)

/-- C9: a model with zero vertices normalizes without raising and with a
no-op translation: an empty `Geometry` is returned unchanged, and an `Object`
with no mesh vertices keeps its position (only the material pass applies),
the degenerate bounding box's centroid being the zero vector. -/
theorem degenerate_normalize_noop :
    (∀ g : BufferGeometry, g.vertices = [] → g.center = g) ∧
    (∀ o : Obj3D, worldVerts o = [] →
      prepareObject o = overrideMats o ∧ (prepareObject o).pos = o.pos ∧
      boxCenterV (worldVerts o) = Vec3.zero) := by
  constructor
  · intro g h
    cases g with
    | mk vs =>
        have h' : vs = [] := h
        subst h'
        simp [BufferGeometry.center]
  · intro o h
    have h1 : worldVerts (overrideMats o) = [] := (worldVerts_override o).trans h
    have h2 : boxCenterV (worldVerts (overrideMats o)) = Vec3.zero := by
      rw [h1]; rfl
    have hpo : prepareObject o = overrideMats o := by
      unfold prepareObject
      exact centerObject_of_center_zero _ h2
    refine ⟨hpo, ?_, by rw [h]; rfl⟩
    rw [hpo, overrideMats_pos]

/-- Witness for C9: an empty geometry and a vertex-free object. -/
theorem degenerate_normalize_noop_witness :
    BufferGeometry.center ⟨[]⟩ = (⟨[]⟩ : BufferGeometry) ∧
    (prepareObject demoEmptyObject = overrideMats demoEmptyObject ∧
      (prepareObject demoEmptyObject).pos = demoEmptyObject.pos ∧
      boxCenterV (worldVerts demoEmptyObject) = Vec3.zero) :=
  ⟨degenerate_normalize_noop.1 ⟨[]⟩ rfl,
   degenerate_normalize_noop.2 demoEmptyObject
     (by simp [demoEmptyObject, worldVerts, worldVertsList])⟩

/-- C10: the dual-mode variant passes `enableRotate = !showGizmo` to the
orbit control: whenever gizmo mode is on, the orbit camera's rotate
capability is off, independently of the drag flag and of the `enabled` flag
— camera orbit rotation is available only in orbit-only mode. -/
theorem rotate_only_in_orbit_mode (g d o : Bool) :
    (orbitProps (SceneState.mk g d o)).enableRotate = !g ∧
    ((orbitProps (SceneState.mk g d o)).enableRotate = true ↔ g = false) := by
  refine ⟨rfl, ?_⟩
  cases g <;> simp [orbitProps]
